import Mathlib

set_option maxRecDepth 8192

/-!
Verification of the vp8-go frame decoder (src/vp8/decode.go).

The Go source is shallowly embedded: byte streams become lists of natural
numbers (each entry intended to be < 256, stated as a hypothesis where a
theorem needs it), the mutable `Decoder` struct becomes a record threaded
through explicit state-passing functions, and Go errors become an explicit
error type.  The standard library function io.ReadFull that
limitReader.ReadFull delegates to is modelled with its documented Go
semantics: it reads min(len(p), available) bytes and returns nil when the
buffer was filled, os.EOF when no byte at all could be read, and
io.ErrUnexpectedEOF when only some bytes could be read.

The boolean entropy decoder (`partition` with init/readUint and the sticky
`unexpectedEOF` flag, and the constant `uniformProb`) is used by decode.go
but its defining file is not part of the sources; those definitions are
modelled from the specification and are marked as such in their doc
comments.
-/

/-- The error values the decoder can surface: os.EOF (returned by
io.ReadFull when the source yields no byte at all), io.ErrUnexpectedEOF,
and the "vp8: invalid format" error created in DecodeFrameHeader. -/
inductive VErr where
  | eof
  | unexpectedEOF
  | invalidFormat
deriving DecidableEq, Repr

deriving instance DecidableEq for Except

/-- limitReader wraps a byte source (modelled as the list of bytes the
underlying io.Reader will still yield) and a remaining byte budget n. -/
structure limitReader where
  src : List Nat
  n : Nat
deriving DecidableEq, Repr

/-- ReadFull reads exactly k bytes (Go: len(p) bytes into p).  If the
request exceeds the budget it fails with io.ErrUnexpectedEOF before
touching the source; otherwise it reads what the source yields, subtracts
the number of bytes actually read from the budget, and reports the
io.ReadFull error: none when k bytes were read, os.EOF when zero bytes
were read (and k > 0), io.ErrUnexpectedEOF when only some were read. -/
def limitReader.ReadFull (r : limitReader) (k : Nat) :
    Option VErr × List Nat × limitReader :=
  if r.n < k then
    (some VErr.unexpectedEOF, [], r)
  else
    ((if (r.src.take k).length = k then none
      else if (r.src.take k).length = 0 then some VErr.eof
      else some VErr.unexpectedEOF),
     r.src.take k,
     ⟨r.src.drop k, r.n - (r.src.take k).length⟩)

/-- FrameHeader, section 9.1 of the VP8 specification. -/
structure FrameHeader where
  KeyFrame : Bool
  VersionNumber : Nat
  ShowFrame : Bool
  FirstPartitionLen : Nat
  Width : Nat
  Height : Nat
  XScale : Nat
  YScale : Nat
deriving DecidableEq, Repr

/-- The zero value of FrameHeader (Go's implicit zero initialization). -/
def FrameHeader.zero : FrameHeader :=
  { KeyFrame := false, VersionNumber := 0, ShowFrame := false,
    FirstPartitionLen := 0, Width := 0, Height := 0, XScale := 0, YScale := 0 }

/-- The ycbcr.YCbCr image the decoder allocates.  The single backing
allocation `buf` of length bufLen is represented by its length together
with an allocId (the value of the decoder's allocation counter at the
moment make() ran, so that distinct allocations are observable); the three
plane slices buf[lo:hi] are represented by their lo/hi cut points. -/
structure YCbCr where
  allocId : Nat
  bufLen : Nat
  yLo : Nat
  yHi : Nat
  cbLo : Nat
  cbHi : Nat
  crLo : Nat
  crHi : Nat
  YStride : Nat
  CStride : Nat
  rectMinX : Nat
  rectMinY : Nat
  rectMaxX : Nat
  rectMaxY : Nat
deriving DecidableEq, Repr

/-- The reuse test of ensureImg: the image rectangle starts at the origin
and covers the 16-pixel macroblock grid. -/
def YCbCr.covers (i : YCbCr) (mbw mbh : Nat) : Prop :=
  i.rectMinX = 0 ∧ i.rectMinY = 0 ∧ 16 * mbw ≤ i.rectMaxX ∧ 16 * mbh ≤ i.rectMaxY

instance (i : YCbCr) (mbw mbh : Nat) : Decidable (i.covers mbw mbh) := by
  unfold YCbCr.covers
  infer_instance

/-- Modelled from the spec: the boolean entropy decoder (`partition` in
decode.go) is declared in a source file that is not part of src/.  Its
state is the borrowed byte buffer, a read cursor (byte offset, the
arithmetic coder's range and value registers, and a loaded-bit count), and
the sticky `unexpectedEOF` flag that is set once a read consumes past the
end of the buffer. -/
structure Partition where
  buf : List Nat
  pos : Nat
  range : Nat
  value : Nat
  nBits : Nat
  unexpectedEOF : Bool
deriving DecidableEq, Repr

/-- Modelled from the spec: init resets the range/value registers to their
start-of-partition values and clears the exhausted flag. -/
def Partition.init (buf : List Nat) : Partition :=
  { buf := buf, pos := 0, range := 255, value := 0, nBits := 0,
    unexpectedEOF := false }

/-- Modelled from the spec: when fewer than 8 loaded bits remain, shift in
the next buffer byte; a missing byte is treated as zero and sets the
sticky `unexpectedEOF` flag. -/
def Partition.load (p : Partition) : Partition :=
  if p.nBits < 8 then
    match p.buf[p.pos]? with
    | some b =>
        { p with value := p.value + b * 2 ^ (8 - p.nBits),
                 pos := p.pos + 1, nBits := p.nBits + 8 }
    | none =>
        { p with nBits := p.nBits + 8, unexpectedEOF := true }
  else p

/-- Modelled from the spec: the renormalization loop doubles the range
(and the value register) until the range is at least 128, consuming one
loaded bit per step.  Each readBool leaves the range at least 1, so at
most 7 doublings are ever needed; the fuel argument makes the recursion
structurally terminating. -/
def Partition.renorm : Nat → Partition → Partition
  | 0, p => p
  | fuel + 1, p =>
      if p.range < 128 then
        Partition.renorm fuel
          { p with range := p.range * 2, value := p.value * 2,
                   nBits := p.nBits - 1 }
      else p

/-- Modelled from the spec: one probability-weighted boolean read.  The
split point is derived from the probability and the current range, the
value register selects the 0- or 1-branch, and the coder renormalizes. -/
def Partition.readBool (p0 : Partition) (prob : Nat) : Bool × Partition :=
  let p := p0.load
  let split := (p.range * prob) >>> 8 + 1
  if split * 256 ≤ p.value then
    (true, Partition.renorm 8
      { p with range := p.range - split, value := p.value - split * 256 })
  else
    (false, Partition.renorm 8 { p with range := split })

/-- Modelled from the spec: readUint decodes numBits bits
most-significant-first, each via readBool with the same probability. -/
def Partition.readUint (p : Partition) (prob : Nat) : Nat → Nat × Partition
  | 0 => (0, p)
  | m + 1 =>
      let r1 := p.readBool prob
      let r2 := r1.2.readUint prob m
      ((if r1.1 then 2 ^ m else 0) + r2.1, r2.2)

/-- Modelled from the spec: the fixed uniform probability (an unbiased
50/50 bit) used for flags that carry no learned probability model. -/
def uniformProb : Nat := 128

/-- Decoder state: the bounded reader, the image buffer (none while no
allocation has happened), the macroblock grid dimensions, the persistent
frame header, and the first partition.  The unused coefficient partitions
op[8] and the scratch buffer of decode.go play no role in any decoded
observable and are omitted.  allocs counts how many times make() ran for
the image buffer, so that reallocation is observable in the model. -/
structure Decoder where
  r : limitReader
  img : Option YCbCr
  allocs : Nat
  mbw : Nat
  mbh : Nat
  frameHeader : FrameHeader
  fp : Partition
deriving DecidableEq, Repr

/-- NewDecoder returns a zero-valued decoder. -/
def Decoder.new : Decoder :=
  { r := ⟨[], 0⟩, img := none, allocs := 0, mbw := 0, mbh := 0,
    frameHeader := FrameHeader.zero, fp := Partition.init [] }

/-- Init binds the input source and the byte budget n. -/
def Decoder.Init (d : Decoder) (src : List Nat) (n : Nat) : Decoder :=
  { d with r := ⟨src, n⟩ }

/-- The frame-header fields decoded from the first 3 header bytes
(decode.go lines 86 to 89). -/
def hdr012 (fh : FrameHeader) (b0 b1 b2 : Nat) : FrameHeader :=
  { fh with
    KeyFrame := b0 &&& 1 == 0,
    VersionNumber := (b0 >>> 1) &&& 7,
    ShowFrame := (b0 >>> 4) &&& 1 == 1,
    FirstPartitionLen := (b0 >>> 5) ||| (b1 <<< 3) ||| (b2 <<< 11) }

/-- The key-frame geometry fields decoded from the 7 additional header
bytes c (decode.go lines 103 to 106). -/
def hdrKey (fh : FrameHeader) (c : List Nat) : FrameHeader :=
  { fh with
    Width := ((c.getD 4 0 &&& 0x3f) <<< 8) ||| c.getD 3 0,
    Height := ((c.getD 6 0 &&& 0x3f) <<< 8) ||| c.getD 5 0,
    XScale := c.getD 4 0 >>> 6,
    YScale := c.getD 6 0 >>> 6 }

/-- DecodeFrameHeader: read 3 bytes and decode the common fields; for key
frames read 7 more bytes, check the sync code, and decode the geometry
and the macroblock grid. -/
def Decoder.DecodeFrameHeader (d : Decoder) :
    Except VErr FrameHeader × Decoder :=
  match d.r.ReadFull 3 with
  | (some e, _, r1) => (Except.error e, { d with r := r1 })
  | (none, b, r1) =>
      let fh1 := hdr012 d.frameHeader (b.getD 0 0) (b.getD 1 0) (b.getD 2 0)
      let d2 : Decoder := { d with r := r1, frameHeader := fh1 }
      if fh1.KeyFrame then
        match d2.r.ReadFull 7 with
        | (some e, _, r2) => (Except.error e, { d2 with r := r2 })
        | (none, c, r2) =>
            if c.getD 0 0 = 0x9d ∧ c.getD 1 0 = 0x01 ∧ c.getD 2 0 = 0x2a then
              let fh2 := hdrKey fh1 c
              (Except.ok fh2,
               { d2 with
                  r := r2
                  frameHeader := fh2
                  mbw := (fh2.Width + 0x0f) >>> 4
                  mbh := (fh2.Height + 0x0f) >>> 4 })
            else
              (Except.error VErr.invalidFormat, { d2 with r := r2 })
      else
        (Except.ok fh1, d2)

/-- The allocation branch of ensureImg: one fresh backing buffer of
n*(1*16*16+2*8*8) bytes, cut into the three consecutive plane slices
exactly as decode.go lines 123 to 132 slice buf. -/
def Decoder.allocImgVal (d : Decoder) : YCbCr :=
  let n := d.mbw * d.mbh
  { allocId := d.allocs,
    bufLen := n * (1 * 16 * 16 + 2 * 8 * 8),
    yLo := n * (0 * 16 * 16 + 0 * 8 * 8),
    yHi := n * (1 * 16 * 16 + 0 * 8 * 8),
    cbLo := n * (1 * 16 * 16 + 0 * 8 * 8),
    cbHi := n * (1 * 16 * 16 + 1 * 8 * 8),
    crLo := n * (1 * 16 * 16 + 1 * 8 * 8),
    crHi := n * (1 * 16 * 16 + 2 * 8 * 8),
    YStride := d.mbw * 16,
    CStride := d.mbw * 8,
    rectMinX := 0, rectMinY := 0,
    rectMaxX := d.frameHeader.Width,
    rectMaxY := d.frameHeader.Height }

/-- The mutation performed by the allocation branch: bump the allocation
counter and install the freshly allocated planes in one assignment. -/
def Decoder.allocImg (d : Decoder) : Decoder :=
  { d with allocs := d.allocs + 1, img := some d.allocImgVal }

/-- ensureImg: keep the current image if its rectangle starts at the
origin and covers the macroblock grid, otherwise allocate. -/
def Decoder.ensureImg (d : Decoder) : Decoder :=
  match d.img with
  | some i => if i.covers d.mbw d.mbh then d else d.allocImg
  | none => d.allocImg

/-- parseOtherHeaders: read the first partition in full, hand it to the
boolean decoder, for key frames read and discard the color-space and
pixel-clamp flags, then surface the sticky exhausted flag. -/
def Decoder.parseOtherHeaders (d : Decoder) : Option VErr × Decoder :=
  match d.r.ReadFull d.frameHeader.FirstPartitionLen with
  | (some e, _, r1) => (some e, { d with r := r1 })
  | (none, bytes, r1) =>
      let fp0 := Partition.init bytes
      let fp1 := if d.frameHeader.KeyFrame then
          (((fp0.readUint uniformProb 1).2).readUint uniformProb 1).2
        else fp0
      let d1 : Decoder := { d with r := r1, fp := fp1 }
      if d1.fp.unexpectedEOF then (some VErr.unexpectedEOF, d1)
      else (none, d1)

/-- DecodeFrame: ensure the image buffer, parse the remaining headers, and
return the image view — nil (none) together with the error on failure. -/
def Decoder.DecodeFrame (d : Decoder) : Option YCbCr × Option VErr × Decoder :=
  let d1 := d.ensureImg
  match d1.parseOtherHeaders with
  | (some e, d2) => (none, some e, d2)
  | (none, d2) => (d2.img, none, d2)

/-! ### Evaluation lemmas for ReadFull -/

theorem limitReader.ReadFull_budget {r : limitReader} {k : Nat} (h : r.n < k) :
    r.ReadFull k = (some VErr.unexpectedEOF, [], r) := by
  simp [limitReader.ReadFull, h]

theorem limitReader.ReadFull_ok {r : limitReader} {k : Nat}
    (hk : k ≤ r.n) (hl : k ≤ r.src.length) :
    r.ReadFull k = (none, r.src.take k, ⟨r.src.drop k, r.n - k⟩) := by
  have h1 : ¬ r.n < k := by omega
  have h2 : (r.src.take k).length = k := by
    simp only [List.length_take]
    omega
  simp [limitReader.ReadFull, h1, h2]

theorem limitReader.ReadFull_none_iff {r : limitReader} {k : Nat} :
    (r.ReadFull k).1 = none ↔ (k ≤ r.n ∧ k ≤ r.src.length) := by
  unfold limitReader.ReadFull
  split
  · rename_i h
    simp
    omega
  · rename_i h
    simp only [List.length_take]
    split
    · rename_i h2
      simp
      omega
    · rename_i h2
      split <;> simp <;> omega

theorem limitReader.ReadFull_some_ne_invalid {r : limitReader} {k : Nat}
    {e : VErr} (h : (r.ReadFull k).1 = some e) : e ≠ VErr.invalidFormat := by
  unfold limitReader.ReadFull at h
  split at h
  · simp at h
    simp [← h]
  · simp only at h
    split at h
    · simp at h
    · split at h <;> simp at h <;> simp [← h]

theorem limitReader.ReadFull_srcEmpty {r : limitReader} {k : Nat}
    (hk : k ≤ r.n) (h0 : r.src = []) (hpos : 0 < k) :
    r.ReadFull k = (some VErr.eof, [], ⟨[], r.n⟩) := by
  have h1 : ¬ r.n < k := by omega
  have h2 : ¬ (k = 0) := by omega
  unfold limitReader.ReadFull
  rw [if_neg h1, h0]
  simp [h2]
  omega

theorem limitReader.ReadFull_partialSrc {r : limitReader} {k : Nat}
    (hk : k ≤ r.n) (hlen : r.src.length < k) (h0 : r.src.length ≠ 0) :
    r.ReadFull k = (some VErr.unexpectedEOF, r.src,
      ⟨[], r.n - r.src.length⟩) := by
  have h1 : ¬ r.n < k := by omega
  have htk : r.src.take k = r.src := List.take_of_length_le (by omega)
  have hdr : r.src.drop k = [] := List.drop_eq_nil_of_le (by omega)
  unfold limitReader.ReadFull
  rw [if_neg h1, htk, hdr]
  simp [h0]
  omega

theorem limitReader.ReadFull_fst (r : limitReader) (k : Nat) :
    (r.ReadFull k).1 =
      (if r.n < k then some VErr.unexpectedEOF
       else if k ≤ r.src.length then none
       else if r.src.length = 0 then some VErr.eof
       else some VErr.unexpectedEOF) := by
  rcases lt_or_ge r.n k with h | h
  · rw [limitReader.ReadFull_budget h, if_pos h]
  · rw [if_neg (by omega : ¬ r.n < k)]
    rcases le_or_lt k r.src.length with h2 | h2
    · rw [limitReader.ReadFull_ok h h2, if_pos h2]
    · rw [if_neg (by omega : ¬ k ≤ r.src.length)]
      rcases Nat.eq_zero_or_pos r.src.length with h3 | h3
      · rw [limitReader.ReadFull_srcEmpty h (List.length_eq_zero.mp h3)
              (by omega), if_pos h3]
      · rw [limitReader.ReadFull_partialSrc h h2 (by omega),
            if_neg (by omega : ¬ r.src.length = 0)]

theorem limitReader.ReadFull_taken_length (r : limitReader) (k : Nat) :
    (r.ReadFull k).2.1.length = if r.n < k then 0 else min k r.src.length := by
  unfold limitReader.ReadFull
  split <;> simp [List.length_take]

theorem limitReader.ReadFull_budget_accounting (r : limitReader) (k : Nat) :
    (r.ReadFull k).2.2.n + (r.ReadFull k).2.1.length = r.n := by
  unfold limitReader.ReadFull
  split
  · simp
  · rename_i h
    simp only [List.length_take]
    omega

/-! ### List destructuring helpers -/

theorem exists_cons3 {l : List Nat} (h : 3 ≤ l.length) :
    ∃ b0 b1 b2 t, l = b0 :: b1 :: b2 :: t := by
  rcases l with _ | ⟨b0, l⟩
  · simp at h
  rcases l with _ | ⟨b1, l⟩
  · simp at h
  rcases l with _ | ⟨b2, t⟩
  · simp at h
  exact ⟨b0, b1, b2, t, rfl⟩

theorem exists_cons7 {l : List Nat} (h : 7 ≤ l.length) :
    ∃ c0 c1 c2 c3 c4 c5 c6 t,
      l = c0 :: c1 :: c2 :: c3 :: c4 :: c5 :: c6 :: t := by
  rcases l with _ | ⟨c0, l⟩
  · simp at h
  rcases l with _ | ⟨c1, l⟩
  · simp at h
  rcases l with _ | ⟨c2, l⟩
  · simp at h
  rcases l with _ | ⟨c3, l⟩
  · simp at h
  rcases l with _ | ⟨c4, l⟩
  · simp at h
  rcases l with _ | ⟨c5, l⟩
  · simp at h
  rcases l with _ | ⟨c6, t⟩
  · simp at h
  exact ⟨c0, c1, c2, c3, c4, c5, c6, t, rfl⟩

/-! ### Bit-level arithmetic bridges -/

theorem lor_shiftLeft_eq_add {a b k : Nat} (h : a < 2 ^ k) :
    a ||| (b <<< k) = a + 2 ^ k * b := by
  rw [Nat.shiftLeft_eq, Nat.mul_comm b (2 ^ k), Nat.lor_comm,
      ← Nat.mul_add_lt_is_or h, Nat.add_comm]

theorem and1_beq_zero (b0 : Nat) : (b0 &&& 1 == 0) = decide (b0 % 2 = 0) := by
  rw [Nat.and_one_is_mod]
  rcases Nat.mod_two_eq_zero_or_one b0 with h | h <;> simp [h]

theorem shift4_and1_beq_one (b0 : Nat) :
    ((b0 >>> 4) &&& 1 == 1) = decide (b0 / 16 % 2 = 1) := by
  rw [Nat.and_one_is_mod, Nat.shiftRight_eq_div_pow]
  norm_num
  rcases Nat.mod_two_eq_zero_or_one (b0 / 16) with h | h <;> simp [h]

theorem shift1_and7 (b0 : Nat) : (b0 >>> 1) &&& 7 = b0 / 2 % 8 := by
  have h := Nat.and_pow_two_sub_one_eq_mod (b0 >>> 1) 3
  norm_num at h
  rw [h, Nat.shiftRight_eq_div_pow]

theorem fpl_arith {b0 b1 b2 : Nat} (h0 : b0 < 256) (h1 : b1 < 256) :
    (b0 >>> 5) ||| (b1 <<< 3) ||| (b2 <<< 11) =
      b0 / 32 + 8 * b1 + 2048 * b2 := by
  have e0 : b0 >>> 5 = b0 / 32 := by
    rw [Nat.shiftRight_eq_div_pow]
  have l1 : (b0 >>> 5) ||| (b1 <<< 3) = b0 / 32 + 8 * b1 := by
    rw [e0, lor_shiftLeft_eq_add (by omega : b0 / 32 < 2 ^ 3)]
    norm_num
  rw [l1, lor_shiftLeft_eq_add (by omega : b0 / 32 + 8 * b1 < 2 ^ 11)]
  norm_num

theorem field14_arith {lo hi : Nat} (hlo : lo < 256) :
    ((hi &&& 0x3f) <<< 8) ||| lo = lo + 256 * (hi % 64) := by
  have h63 : hi &&& 0x3f = hi % 64 := by
    have h := Nat.and_pow_two_sub_one_eq_mod hi 6
    norm_num at h
    exact h
  rw [Nat.lor_comm, h63, lor_shiftLeft_eq_add (by omega : lo < 2 ^ 8)]
  norm_num

theorem shift6_eq (hi : Nat) : hi >>> 6 = hi / 64 := by
  rw [Nat.shiftRight_eq_div_pow]

theorem shift4_eq (w : Nat) : w >>> 4 = w / 16 := by
  rw [Nat.shiftRight_eq_div_pow]

/-! ### Evaluation lemmas for DecodeFrameHeader -/

theorem dfh_read1_err {d : Decoder} {e : VErr}
    (h : (d.r.ReadFull 3).1 = some e) :
    (d.DecodeFrameHeader).1 = Except.error e := by
  unfold Decoder.DecodeFrameHeader
  rcases h3 : d.r.ReadFull 3 with ⟨o, b, r1⟩
  rw [h3] at h
  simp at h
  subst h
  simp

theorem dfh_nonkey {d : Decoder} {b0 b1 b2 : Nat} {t : List Nat}
    (hs : d.r.src = b0 :: b1 :: b2 :: t) (hn : 3 ≤ d.r.n)
    (hk : b0 % 2 = 1) :
    d.DecodeFrameHeader =
      (Except.ok (hdr012 d.frameHeader b0 b1 b2),
       { d with r := ⟨t, d.r.n - 3⟩
                frameHeader := hdr012 d.frameHeader b0 b1 b2 }) := by
  have h1 : d.r.ReadFull 3 = (none, [b0, b1, b2], ⟨t, d.r.n - 3⟩) := by
    rw [limitReader.ReadFull_ok hn (by simp [hs])]
    simp [hs]
  have hkf : (hdr012 d.frameHeader b0 b1 b2).KeyFrame = false := by
    simp [hdr012, Nat.and_one_is_mod, hk]
  unfold Decoder.DecodeFrameHeader
  rw [h1]
  simp [hkf]

theorem dfh_key_read2_err {d : Decoder} {b0 b1 b2 : Nat} {t : List Nat}
    {e : VErr}
    (hs : d.r.src = b0 :: b1 :: b2 :: t) (hn : 3 ≤ d.r.n)
    (hk : b0 % 2 = 0)
    (h7 : ((⟨t, d.r.n - 3⟩ : limitReader).ReadFull 7).1 = some e) :
    (d.DecodeFrameHeader).1 = Except.error e ∧
    (d.DecodeFrameHeader).2.frameHeader = hdr012 d.frameHeader b0 b1 b2 := by
  have h1 : d.r.ReadFull 3 = (none, [b0, b1, b2], ⟨t, d.r.n - 3⟩) := by
    rw [limitReader.ReadFull_ok hn (by simp [hs])]
    simp [hs]
  have hkf : (hdr012 d.frameHeader b0 b1 b2).KeyFrame = true := by
    simp [hdr012, Nat.and_one_is_mod, hk]
  unfold Decoder.DecodeFrameHeader
  rw [h1]
  simp only [List.getD_cons_zero, List.getD_cons_succ, hkf, if_true]
  rcases h9 : (⟨t, d.r.n - 3⟩ : limitReader).ReadFull 7 with ⟨o, c, r2⟩
  rw [h9] at h7
  simp at h7
  subst h7
  simp [hkf]

theorem dfh_key_sync {d : Decoder} {b0 b1 b2 c0 c1 c2 c3 c4 c5 c6 : Nat}
    {t : List Nat}
    (hs : d.r.src = b0 :: b1 :: b2 :: c0 :: c1 :: c2 :: c3 :: c4 :: c5 ::
      c6 :: t)
    (hn : 10 ≤ d.r.n) (hk : b0 % 2 = 0)
    (hc : c0 = 0x9d ∧ c1 = 0x01 ∧ c2 = 0x2a) :
    d.DecodeFrameHeader =
      (Except.ok (hdrKey (hdr012 d.frameHeader b0 b1 b2)
         [c0, c1, c2, c3, c4, c5, c6]),
       { d with
          r := ⟨t, d.r.n - 10⟩
          frameHeader := hdrKey (hdr012 d.frameHeader b0 b1 b2)
            [c0, c1, c2, c3, c4, c5, c6]
          mbw := ((hdrKey (hdr012 d.frameHeader b0 b1 b2)
            [c0, c1, c2, c3, c4, c5, c6]).Width + 0x0f) >>> 4
          mbh := ((hdrKey (hdr012 d.frameHeader b0 b1 b2)
            [c0, c1, c2, c3, c4, c5, c6]).Height + 0x0f) >>> 4 }) := by
  obtain ⟨hc0, hc1, hc2⟩ := hc
  subst hc0
  subst hc1
  subst hc2
  have h1 : d.r.ReadFull 3 =
      (none, [b0, b1, b2],
       ⟨0x9d :: 0x01 :: 0x2a :: c3 :: c4 :: c5 :: c6 :: t, d.r.n - 3⟩) := by
    rw [limitReader.ReadFull_ok (by omega) (by simp [hs])]
    simp [hs]
  have hkf : (hdr012 d.frameHeader b0 b1 b2).KeyFrame = true := by
    simp [hdr012, Nat.and_one_is_mod, hk]
  have h2 : (⟨0x9d :: 0x01 :: 0x2a :: c3 :: c4 :: c5 :: c6 :: t,
      d.r.n - 3⟩ : limitReader).ReadFull 7 =
      (none, [0x9d, 0x01, 0x2a, c3, c4, c5, c6], ⟨t, d.r.n - 3 - 7⟩) := by
    rw [limitReader.ReadFull_ok (by simp; omega) (by simp)]
    simp
  have hsub : d.r.n - 3 - 7 = d.r.n - 10 := by omega
  unfold Decoder.DecodeFrameHeader
  rw [h1]
  simp only [List.getD_cons_zero, List.getD_cons_succ, hkf, if_true]
  rw [h2]
  simp [hsub]

theorem dfh_key_mismatch {d : Decoder} {b0 b1 b2 c0 c1 c2 c3 c4 c5 c6 : Nat}
    {t : List Nat}
    (hs : d.r.src = b0 :: b1 :: b2 :: c0 :: c1 :: c2 :: c3 :: c4 :: c5 ::
      c6 :: t)
    (hn : 10 ≤ d.r.n) (hk : b0 % 2 = 0)
    (hc : ¬ (c0 = 0x9d ∧ c1 = 0x01 ∧ c2 = 0x2a)) :
    d.DecodeFrameHeader =
      (Except.error VErr.invalidFormat,
       { d with
          r := ⟨t, d.r.n - 10⟩
          frameHeader := hdr012 d.frameHeader b0 b1 b2 }) := by
  have h1 : d.r.ReadFull 3 =
      (none, [b0, b1, b2],
       ⟨c0 :: c1 :: c2 :: c3 :: c4 :: c5 :: c6 :: t, d.r.n - 3⟩) := by
    rw [limitReader.ReadFull_ok (by omega) (by simp [hs])]
    simp [hs]
  have hkf : (hdr012 d.frameHeader b0 b1 b2).KeyFrame = true := by
    simp [hdr012, Nat.and_one_is_mod, hk]
  have h2 : (⟨c0 :: c1 :: c2 :: c3 :: c4 :: c5 :: c6 :: t,
      d.r.n - 3⟩ : limitReader).ReadFull 7 =
      (none, [c0, c1, c2, c3, c4, c5, c6], ⟨t, d.r.n - 3 - 7⟩) := by
    rw [limitReader.ReadFull_ok (by simp; omega) (by simp)]
    simp
  have hsub : d.r.n - 3 - 7 = d.r.n - 10 := by omega
  unfold Decoder.DecodeFrameHeader
  rw [h1]
  simp only [List.getD_cons_zero, List.getD_cons_succ, hkf, if_true]
  rw [h2]
  simp only [List.getD_cons_zero, List.getD_cons_succ]
  rw [if_neg hc]
  simp [hsub]

theorem dfh_key_fields {d : Decoder} {b0 b1 b2 : Nat} {t : List Nat}
    (hs : d.r.src = b0 :: b1 :: b2 :: t) (hn : 3 ≤ d.r.n)
    (hk : b0 % 2 = 0) :
    ∃ W H XS YS : Nat,
      (d.DecodeFrameHeader).2.frameHeader =
        { hdr012 d.frameHeader b0 b1 b2 with
            Width := W, Height := H, XScale := XS, YScale := YS } := by
  rcases h9 : ((⟨t, d.r.n - 3⟩ : limitReader).ReadFull 7).1 with _ | e
  · have hok : 7 ≤ d.r.n - 3 ∧ 7 ≤ t.length :=
      limitReader.ReadFull_none_iff.mp h9
    obtain ⟨c0, c1, c2, c3, c4, c5, c6, u, ht⟩ := exists_cons7 hok.2
    subst ht
    by_cases hc : c0 = 0x9d ∧ c1 = 0x01 ∧ c2 = 0x2a
    · rw [dfh_key_sync hs (by omega) hk hc]
      exact ⟨_, _, _, _, rfl⟩
    · rw [dfh_key_mismatch hs (by omega) hk hc]
      exact ⟨(hdr012 d.frameHeader b0 b1 b2).Width,
        (hdr012 d.frameHeader b0 b1 b2).Height,
        (hdr012 d.frameHeader b0 b1 b2).XScale,
        (hdr012 d.frameHeader b0 b1 b2).YScale, rfl⟩
  · have h := dfh_key_read2_err hs hn hk h9
    rw [h.2]
    exact ⟨(hdr012 d.frameHeader b0 b1 b2).Width,
      (hdr012 d.frameHeader b0 b1 b2).Height,
      (hdr012 d.frameHeader b0 b1 b2).XScale,
      (hdr012 d.frameHeader b0 b1 b2).YScale, rfl⟩

/-- Claim C1: for every 3 header bytes successfully read, the stored frame
header decodes the byte-exact layout: KeyFrame holds iff bit 0 of byte 0
is clear, VersionNumber is bits 1 to 3 of byte 0, ShowFrame is bit 4 of
byte 0, and FirstPartitionLen is the 19-bit little-endian-bit-order value
built from byte 0 bits 5 to 7, byte 1, and byte 2, hence below 2 ^ 19. -/
theorem c1_decode_frame_header_bit_layout (d : Decoder)
    (hn : 3 ≤ d.r.n) (hl : 3 ≤ d.r.src.length)
    (hb0 : d.r.src.getD 0 0 < 256) (hb1 : d.r.src.getD 1 0 < 256)
    (hb2 : d.r.src.getD 2 0 < 256) :
    ((d.DecodeFrameHeader).2.frameHeader.KeyFrame
        = decide (d.r.src.getD 0 0 % 2 = 0)) ∧
    (d.DecodeFrameHeader).2.frameHeader.VersionNumber
        = d.r.src.getD 0 0 / 2 % 8 ∧
    ((d.DecodeFrameHeader).2.frameHeader.ShowFrame
        = decide (d.r.src.getD 0 0 / 16 % 2 = 1)) ∧
    (d.DecodeFrameHeader).2.frameHeader.FirstPartitionLen
        = d.r.src.getD 0 0 / 32 + 8 * d.r.src.getD 1 0
          + 2048 * d.r.src.getD 2 0 ∧
    (d.DecodeFrameHeader).2.frameHeader.FirstPartitionLen < 2 ^ 19 := by
  obtain ⟨b0, b1, b2, t, hs⟩ := exists_cons3 hl
  rw [hs] at hb0 hb1 hb2
  simp only [List.getD_cons_zero, List.getD_cons_succ] at hb0 hb1 hb2
  have hfields :
      (d.DecodeFrameHeader).2.frameHeader.KeyFrame
          = (hdr012 d.frameHeader b0 b1 b2).KeyFrame ∧
      (d.DecodeFrameHeader).2.frameHeader.VersionNumber
          = (hdr012 d.frameHeader b0 b1 b2).VersionNumber ∧
      (d.DecodeFrameHeader).2.frameHeader.ShowFrame
          = (hdr012 d.frameHeader b0 b1 b2).ShowFrame ∧
      (d.DecodeFrameHeader).2.frameHeader.FirstPartitionLen
          = (hdr012 d.frameHeader b0 b1 b2).FirstPartitionLen := by
    rcases Nat.mod_two_eq_zero_or_one b0 with hk | hk
    · obtain ⟨W, H, XS, YS, hfh⟩ := dfh_key_fields hs hn hk
      rw [hfh]
      exact ⟨rfl, rfl, rfl, rfl⟩
    · rw [dfh_nonkey hs hn hk]
      exact ⟨rfl, rfl, rfl, rfl⟩
  rw [hs]
  simp only [List.getD_cons_zero, List.getD_cons_succ]
  rw [hfields.1, hfields.2.1, hfields.2.2.1, hfields.2.2.2]
  refine ⟨?_, ?_, ?_, ?_, ?_⟩
  · simp only [hdr012]
    exact and1_beq_zero b0
  · simp [hdr012, shift1_and7]
  · simp only [hdr012]
    exact shift4_and1_beq_one b0
  · simp [hdr012, fpl_arith hb0 hb1]
  · simp [hdr012, fpl_arith hb0 hb1]
    omega

/-- A concrete decoder for the C1 witness: 3 bytes 0x95 0x02 0x03. -/
def c1d : Decoder := Decoder.new.Init [0x95, 0x02, 0x03] 3

theorem c1_decode_frame_header_bit_layout_witness :
    ((c1d.DecodeFrameHeader).2.frameHeader.KeyFrame
        = decide (c1d.r.src.getD 0 0 % 2 = 0)) ∧
    (c1d.DecodeFrameHeader).2.frameHeader.VersionNumber
        = c1d.r.src.getD 0 0 / 2 % 8 ∧
    ((c1d.DecodeFrameHeader).2.frameHeader.ShowFrame
        = decide (c1d.r.src.getD 0 0 / 16 % 2 = 1)) ∧
    (c1d.DecodeFrameHeader).2.frameHeader.FirstPartitionLen
        = c1d.r.src.getD 0 0 / 32 + 8 * c1d.r.src.getD 1 0
          + 2048 * c1d.r.src.getD 2 0 ∧
    (c1d.DecodeFrameHeader).2.frameHeader.FirstPartitionLen < 2 ^ 19 :=
  c1_decode_frame_header_bit_layout c1d (by decide) (by decide) (by decide)
    (by decide) (by decide)

/-- Claim C6: decoding a non-key frame header leaves the stored geometry
(Width, Height, XScale, YScale) and the derived macroblock grid dimensions
unchanged, for every decoder state. -/
theorem c6_nonkey_preserves_geometry (d : Decoder)
    (hn : 3 ≤ d.r.n) (hl : 3 ≤ d.r.src.length)
    (hk : d.r.src.getD 0 0 % 2 = 1) :
    (d.DecodeFrameHeader).2.frameHeader.Width = d.frameHeader.Width ∧
    (d.DecodeFrameHeader).2.frameHeader.Height = d.frameHeader.Height ∧
    (d.DecodeFrameHeader).2.frameHeader.XScale = d.frameHeader.XScale ∧
    (d.DecodeFrameHeader).2.frameHeader.YScale = d.frameHeader.YScale ∧
    (d.DecodeFrameHeader).2.mbw = d.mbw ∧
    (d.DecodeFrameHeader).2.mbh = d.mbh := by
  obtain ⟨b0, b1, b2, t, hs⟩ := exists_cons3 hl
  rw [hs] at hk
  simp only [List.getD_cons_zero] at hk
  rw [dfh_nonkey hs hn hk]
  exact ⟨rfl, rfl, rfl, rfl, rfl, rfl⟩

/-- A concrete decoder for the C6 witness: geometry established by an
earlier 176 by 144 key frame, then a non-key frame header 0x01 0x00 0x00. -/
def c6d : Decoder :=
  { Decoder.new with
      mbw := 11, mbh := 9,
      frameHeader := { FrameHeader.zero with
        Width := 176, Height := 144, XScale := 0, YScale := 0 },
      r := ⟨[0x01, 0x00, 0x00], 3⟩ }

theorem c6_nonkey_preserves_geometry_witness :
    (c6d.DecodeFrameHeader).2.frameHeader.Width = c6d.frameHeader.Width ∧
    (c6d.DecodeFrameHeader).2.frameHeader.Height = c6d.frameHeader.Height ∧
    (c6d.DecodeFrameHeader).2.frameHeader.XScale = c6d.frameHeader.XScale ∧
    (c6d.DecodeFrameHeader).2.frameHeader.YScale = c6d.frameHeader.YScale ∧
    (c6d.DecodeFrameHeader).2.mbw = c6d.mbw ∧
    (c6d.DecodeFrameHeader).2.mbh = c6d.mbh :=
  c6_nonkey_preserves_geometry c6d (by decide) (by decide) (by decide)

/-- Claim C3: a successfully parsed key-frame header takes width as the
low 14 bits and xScale as the top 2 bits of the little-endian 16-bit field
at header bytes 6 and 7, height and yScale likewise from bytes 8 and 9,
and the macroblock grid is the ceiling of width and height over 16. -/
theorem c3_keyframe_geometry (d : Decoder)
    (hn : 10 ≤ d.r.n) (hl : 10 ≤ d.r.src.length)
    (hk : d.r.src.getD 0 0 % 2 = 0)
    (hsync : d.r.src.getD 3 0 = 0x9d ∧ d.r.src.getD 4 0 = 0x01 ∧
      d.r.src.getD 5 0 = 0x2a)
    (h6 : d.r.src.getD 6 0 < 256) (h7 : d.r.src.getD 7 0 < 256)
    (h8 : d.r.src.getD 8 0 < 256) (h9 : d.r.src.getD 9 0 < 256) :
    (d.DecodeFrameHeader).2.frameHeader.Width
        = (d.r.src.getD 6 0 + 256 * d.r.src.getD 7 0) % 2 ^ 14 ∧
    (d.DecodeFrameHeader).2.frameHeader.XScale
        = (d.r.src.getD 6 0 + 256 * d.r.src.getD 7 0) / 2 ^ 14 ∧
    (d.DecodeFrameHeader).2.frameHeader.Height
        = (d.r.src.getD 8 0 + 256 * d.r.src.getD 9 0) % 2 ^ 14 ∧
    (d.DecodeFrameHeader).2.frameHeader.YScale
        = (d.r.src.getD 8 0 + 256 * d.r.src.getD 9 0) / 2 ^ 14 ∧
    (d.DecodeFrameHeader).2.mbw
        = ((d.DecodeFrameHeader).2.frameHeader.Width + 16 - 1) / 16 ∧
    (d.DecodeFrameHeader).2.mbh
        = ((d.DecodeFrameHeader).2.frameHeader.Height + 16 - 1) / 16 := by
  have hl3 : 3 ≤ d.r.src.length := by omega
  obtain ⟨b0, b1, b2, t0, hs0⟩ := exists_cons3 hl3
  have ht0 : 7 ≤ t0.length := by
    have := hl
    rw [hs0] at this
    simp at this
    omega
  obtain ⟨c0, c1, c2, c3, c4, c5, c6, u, ht⟩ := exists_cons7 ht0
  rw [ht] at hs0
  rw [hs0] at hk hsync h6 h7 h8 h9
  simp only [List.getD_cons_zero, List.getD_cons_succ] at hk hsync h6 h7 h8 h9
  rw [dfh_key_sync hs0 hn hk hsync]
  rw [hs0]
  simp only [List.getD_cons_zero, List.getD_cons_succ, hdrKey]
  refine ⟨?_, ?_, ?_, ?_, ?_, ?_⟩
  · rw [field14_arith h6]
    omega
  · rw [shift6_eq]
    omega
  · rw [field14_arith h8]
    omega
  · rw [shift6_eq]
    omega
  · rw [shift4_eq]
    norm_num
  · rw [shift4_eq]
    norm_num

/-- A concrete decoder for the C3 witness: a key-frame header encoding
176 by 144 with scale 0. -/
def c3d : Decoder :=
  Decoder.new.Init [0x00, 0x00, 0x00, 0x9d, 0x01, 0x2a, 176, 0, 144, 0] 10

theorem c3_keyframe_geometry_witness :
    (c3d.DecodeFrameHeader).2.frameHeader.Width
        = (c3d.r.src.getD 6 0 + 256 * c3d.r.src.getD 7 0) % 2 ^ 14 ∧
    (c3d.DecodeFrameHeader).2.frameHeader.XScale
        = (c3d.r.src.getD 6 0 + 256 * c3d.r.src.getD 7 0) / 2 ^ 14 ∧
    (c3d.DecodeFrameHeader).2.frameHeader.Height
        = (c3d.r.src.getD 8 0 + 256 * c3d.r.src.getD 9 0) % 2 ^ 14 ∧
    (c3d.DecodeFrameHeader).2.frameHeader.YScale
        = (c3d.r.src.getD 8 0 + 256 * c3d.r.src.getD 9 0) / 2 ^ 14 ∧
    (c3d.DecodeFrameHeader).2.mbw
        = ((c3d.DecodeFrameHeader).2.frameHeader.Width + 16 - 1) / 16 ∧
    (c3d.DecodeFrameHeader).2.mbh
        = ((c3d.DecodeFrameHeader).2.frameHeader.Height + 16 - 1) / 16 :=
  c3_keyframe_geometry c3d (by decide) (by decide) (by decide)
    (by decide) (by decide) (by decide) (by decide) (by decide)

/-- The exact condition under which DecodeFrameHeader reports a format
error: both header reads succeed, the frame is a key frame, and the sync
signature does not match 0x9d 0x01 0x2a. -/
def keyFrameSyncMismatch (d : Decoder) : Prop :=
  10 ≤ d.r.n ∧ 10 ≤ d.r.src.length ∧ d.r.src.getD 0 0 % 2 = 0 ∧
  ¬ (d.r.src.getD 3 0 = 0x9d ∧ d.r.src.getD 4 0 = 0x01 ∧
     d.r.src.getD 5 0 = 0x2a)

/-- Claim C2 (amended): DecodeFrameHeader fails with the InvalidFormat
error exactly when a fully read key-frame header carries a corrupted sync
signature; in particular truncation never produces InvalidFormat and a
sync mismatch never produces an end-of-stream error, so the two failure
causes are never conflated.  (The original claim additionally said that
UnexpectedEndOfStream is returned exactly when a read cannot be
satisfied; when the source yields no byte at all the code instead
surfaces os.EOF, see the counterexample.) -/
theorem c2_invalid_format_iff_sync_mismatch (d : Decoder) :
    (d.DecodeFrameHeader).1 = Except.error VErr.invalidFormat ↔
      keyFrameSyncMismatch d := by
  by_cases hA : 3 ≤ d.r.n ∧ 3 ≤ d.r.src.length
  · obtain ⟨b0, b1, b2, t, hs⟩ := exists_cons3 hA.2
    have hlen : d.r.src.length = t.length + 3 := by
      rw [hs]
      simp
    rcases Nat.mod_two_eq_zero_or_one b0 with hk | hk
    · by_cases hB : 7 ≤ d.r.n - 3 ∧ 7 ≤ t.length
      · obtain ⟨c0, c1, c2, c3, c4, c5, c6, u, ht⟩ := exists_cons7 hB.2
        subst ht
        by_cases hc : c0 = 0x9d ∧ c1 = 0x01 ∧ c2 = 0x2a
        · rw [dfh_key_sync hs (by omega) hk hc]
          constructor
          · intro hcontra
            simp at hcontra
          · rintro ⟨-, -, -, hmis⟩
            rw [hs] at hmis
            simp only [List.getD_cons_zero, List.getD_cons_succ] at hmis
            exact absurd hc hmis
        · rw [dfh_key_mismatch hs (by omega) hk hc]
          constructor
          · intro _
            refine ⟨by omega, by omega, ?_, ?_⟩
            · rw [hs]
              simpa using hk
            · rw [hs]
              simpa using hc
          · intro _
            rfl
      · have h9 : ∃ e, ((⟨t, d.r.n - 3⟩ : limitReader).ReadFull 7).1 = some e := by
          rcases ho : ((⟨t, d.r.n - 3⟩ : limitReader).ReadFull 7).1 with _ | e
          · have := limitReader.ReadFull_none_iff.mp ho
            simp at this
            exact absurd this hB
          · exact ⟨e, rfl⟩
        obtain ⟨e, h9⟩ := h9
        have hres := dfh_key_read2_err hs hA.1 hk h9
        rw [hres.1]
        have hne := limitReader.ReadFull_some_ne_invalid h9
        constructor
        · intro hcontra
          simp at hcontra
          exact absurd hcontra hne
        · rintro ⟨hn10, hl10, -, -⟩
          exfalso
          omega
    · rw [dfh_nonkey hs hA.1 hk]
      constructor
      · intro hcontra
        simp at hcontra
      · rintro ⟨-, -, hkey, -⟩
        rw [hs] at hkey
        simp only [List.getD_cons_zero] at hkey
        omega
  · have h3 : ∃ e, (d.r.ReadFull 3).1 = some e := by
      rcases ho : (d.r.ReadFull 3).1 with _ | e
      · exact absurd (limitReader.ReadFull_none_iff.mp ho) hA
      · exact ⟨e, rfl⟩
    obtain ⟨e, h3⟩ := h3
    rw [dfh_read1_err h3]
    have hne := limitReader.ReadFull_some_ne_invalid h3
    constructor
    · intro hcontra
      simp at hcontra
      exact absurd hcontra hne
    · rintro ⟨hn10, hl10, -, -⟩
      exact absurd (⟨by omega, by omega⟩ : 3 ≤ d.r.n ∧ 3 ≤ d.r.src.length) hA

/-- Counterexample to claim C2 as stated: with an empty source and budget
3 the header read cannot be satisfied, yet DecodeFrameHeader surfaces
os.EOF, which is a different error value than UnexpectedEndOfStream, so
UnexpectedEndOfStream is not returned every time a read fails. -/
theorem c2_eof_not_unexpectedEOF_counterexample :
    ((Decoder.new.Init [] 3).DecodeFrameHeader).1 = Except.error VErr.eof ∧
    VErr.eof ≠ VErr.unexpectedEOF := by decide

/-- Counterexample to claim C4 as stated: bit 0 of 0x10 is 0, and in the
inverted encoding that makes the frame a KEY frame, not an interframe,
with show-frame bit 4 set; DecodeFrameHeader therefore goes on to demand
7 more header bytes and fails, instead of returning an interframe
header. -/
theorem c4_keyframe_not_interframe_counterexample :
    ((Decoder.new.Init [0x10, 0x00, 0x00] 3).DecodeFrameHeader).2.frameHeader.KeyFrame
        = true ∧
    ((Decoder.new.Init [0x10, 0x00, 0x00] 3).DecodeFrameHeader).2.frameHeader.ShowFrame
        = true ∧
    ((Decoder.new.Init [0x10, 0x00, 0x00] 3).DecodeFrameHeader).1
        = Except.error VErr.unexpectedEOF := by decide

/-- Claim C4 (amended): the header bytes whose decode is an interframe
with version 0, showFrame false and firstPartitionLength 0 are
0x01 0x00 0x00 (bit 0 set means non-key frame); on that input
DecodeFrameHeader succeeds with those fields and a subsequent DecodeFrame
with 0 remaining first-partition bytes still succeeds, because the
interframe path performs no post-init flag reads. -/
theorem c4_interframe_empty_partition_ok :
    ((Decoder.new.Init [0x01, 0x00, 0x00] 3).DecodeFrameHeader).1
        = Except.ok ⟨false, 0, false, 0, 0, 0, 0, 0⟩ ∧
    (((Decoder.new.Init [0x01, 0x00, 0x00] 3).DecodeFrameHeader).2.DecodeFrame).2.1
        = none ∧
    (((Decoder.new.Init [0x01, 0x00, 0x00] 3).DecodeFrameHeader).2.DecodeFrame).1.isSome
        = true := by decide

/-- Claim C5 (amended): ReadFull fails with UnexpectedEndOfStream when the
request exceeds the remaining budget, succeeds when the source covers the
request, fails with os.EOF when the source yields no byte at all, and
fails with UnexpectedEndOfStream when the source yields some but not all
requested bytes; the number of bytes taken is min(k, available) (0 when
the budget is exceeded), and after every call the budget has decreased by
exactly the number of bytes actually read — so on success it has
decreased by exactly the requested length.  (The original claim said the
zero-byte case also yields UnexpectedEndOfStream; it yields os.EOF, see
the counterexample.) -/
theorem c5_readfull_errors_and_budget (r : limitReader) (k : Nat) :
    (r.ReadFull k).1 =
      (if r.n < k then some VErr.unexpectedEOF
       else if k ≤ r.src.length then none
       else if r.src.length = 0 then some VErr.eof
       else some VErr.unexpectedEOF) ∧
    (r.ReadFull k).2.1.length = (if r.n < k then 0 else min k r.src.length) ∧
    (r.ReadFull k).2.2.n + (r.ReadFull k).2.1.length = r.n :=
  ⟨limitReader.ReadFull_fst r k, limitReader.ReadFull_taken_length r k,
   limitReader.ReadFull_budget_accounting r k⟩

/-- Counterexample to claim C5 as stated: a request of 1 byte within the
budget from an already exhausted source fails with os.EOF, not with
UnexpectedEndOfStream. -/
theorem c5_empty_source_eof_counterexample :
    (limitReader.ReadFull ⟨[], 5⟩ 1).1 = some VErr.eof ∧
    some VErr.eof ≠ some VErr.unexpectedEOF := by decide

/-! ### Evaluation lemmas for ensureImg -/

theorem allocImgVal_covers {d : Decoder}
    (hw : 16 * d.mbw ≤ d.frameHeader.Width)
    (hh : 16 * d.mbh ≤ d.frameHeader.Height) :
    (d.allocImgVal).covers d.mbw d.mbh :=
  ⟨rfl, rfl, hw, hh⟩

theorem ensureImg_of_allocImg {d : Decoder}
    (hw : 16 * d.mbw ≤ d.frameHeader.Width)
    (hh : 16 * d.mbh ≤ d.frameHeader.Height) :
    (d.allocImg).ensureImg = d.allocImg := by
  unfold Decoder.ensureImg
  have himg : (d.allocImg).img = some d.allocImgVal := rfl
  rw [himg]
  dsimp only
  have hmbw : (d.allocImg).mbw = d.mbw := rfl
  have hmbh : (d.allocImg).mbh = d.mbh := rfl
  rw [hmbw, hmbh, if_pos (allocImgVal_covers hw hh)]

theorem ensureImg_keeps_reader_and_header (d : Decoder) :
    (d.ensureImg).r = d.r ∧ (d.ensureImg).frameHeader = d.frameHeader ∧
    (d.ensureImg).mbw = d.mbw ∧ (d.ensureImg).mbh = d.mbh := by
  unfold Decoder.ensureImg
  rcases d.img with _ | i
  · exact ⟨rfl, rfl, rfl, rfl⟩
  · dsimp only
    split
    · exact ⟨rfl, rfl, rfl, rfl⟩
    · exact ⟨rfl, rfl, rfl, rfl⟩

/-- Claim C7 (amended): ensureImg allocates lazily (the first call on a
decoder without an image performs exactly one allocation), and it is
idempotent whenever the stored logical rectangle can cover the 16-aligned
macroblock grid, that is when 16*mbw <= Width and 16*mbh <= Height (in
particular for dimensions that are multiples of 16): the second of two
calls then changes nothing and performs no reallocation.  (Without that
alignment the reuse check, which compares the logical rectangle and not
the allocated grid, fails and every call reallocates, see the
counterexample; for the same reason the buffer is not in general grown
only when the grid grows, nor never shrunk.) -/
theorem c7_ensure_img_lazy_and_idempotent_when_aligned (d : Decoder)
    (hw : 16 * d.mbw ≤ d.frameHeader.Width)
    (hh : 16 * d.mbh ≤ d.frameHeader.Height) :
    (d.ensureImg).ensureImg = d.ensureImg ∧
    (d.img = none → (d.ensureImg).allocs = d.allocs + 1) := by
  constructor
  · rcases himg : d.img with _ | i
    · have h1 : d.ensureImg = d.allocImg := by
        unfold Decoder.ensureImg
        rw [himg]
      rw [h1]
      exact ensureImg_of_allocImg hw hh
    · by_cases hcov : i.covers d.mbw d.mbh
      · have h1 : d.ensureImg = d := by
          unfold Decoder.ensureImg
          rw [himg]
          dsimp only
          rw [if_pos hcov]
        rw [h1, h1]
      · have h1 : d.ensureImg = d.allocImg := by
          unfold Decoder.ensureImg
          rw [himg]
          dsimp only
          rw [if_neg hcov]
        rw [h1]
        exact ensureImg_of_allocImg hw hh
  · intro h
    have h1 : d.ensureImg = d.allocImg := by
      unfold Decoder.ensureImg
      rw [h]
    rw [h1]
    rfl

/-- A decoder whose 170 by 144 frame is not 16-aligned: the logical
rectangle (170) cannot cover the 11-macroblock grid (176). -/
def c7d : Decoder :=
  { Decoder.new with
      mbw := 11, mbh := 9,
      frameHeader := { FrameHeader.zero with Width := 170, Height := 144 } }

/-- Counterexample to claim C7 as stated: with unchanged (hence
non-increasing) macroblock dimensions 11 by 9 but a 170-pixel-wide
logical rectangle, the second ensureImg call reallocates again (the
allocation counter reaches 2), so ensureImg is not idempotent. -/
theorem c7_realloc_when_unaligned_counterexample :
    (c7d.ensureImg).allocs = 1 ∧ (c7d.ensureImg.ensureImg).allocs = 2 := by
  decide

/-- A decoder whose 176 by 144 frame is 16-aligned. -/
def c7w : Decoder :=
  { Decoder.new with
      mbw := 11, mbh := 9,
      frameHeader := { FrameHeader.zero with Width := 176, Height := 144 } }

theorem c7_ensure_img_lazy_and_idempotent_when_aligned_witness :
    (c7w.ensureImg).ensureImg = c7w.ensureImg ∧
    (c7w.img = none → (c7w.ensureImg).allocs = c7w.allocs + 1) :=
  c7_ensure_img_lazy_and_idempotent_when_aligned c7w (by decide) (by decide)

/-! ### Evaluation lemmas for parseOtherHeaders and DecodeFrame -/

theorem parse_read_err {d : Decoder} {e : VErr}
    (h : (d.r.ReadFull d.frameHeader.FirstPartitionLen).1 = some e) :
    (d.parseOtherHeaders).1 = some e := by
  unfold Decoder.parseOtherHeaders
  rcases hr : d.r.ReadFull d.frameHeader.FirstPartitionLen with ⟨o, b, r1⟩
  rw [hr] at h
  simp at h
  subst h
  simp

theorem decodeFrame_of_parse_err {d : Decoder} {e : VErr}
    (h : ((d.ensureImg).parseOtherHeaders).1 = some e) :
    (d.DecodeFrame).1 = none ∧ (d.DecodeFrame).2.1 = some e := by
  unfold Decoder.DecodeFrame
  dsimp only
  rcases hp : (d.ensureImg).parseOtherHeaders with ⟨o, d2⟩
  rw [hp] at h
  simp at h
  subst h
  exact ⟨rfl, rfl⟩

/-- Claim C8 (amended): whenever the bytes still available (the smaller of
the remaining budget and what the source can yield) are fewer than the
declared first-partition length, DecodeFrame fails — with
UnexpectedEndOfStream when the budget is exceeded or the source yields
some bytes, with os.EOF when the source yields none — and the returned
image view is nil, never a partially valid buffer. -/
theorem c8_short_first_partition_fails (d : Decoder)
    (h : min d.r.n d.r.src.length < d.frameHeader.FirstPartitionLen) :
    (d.DecodeFrame).1 = none ∧
    (d.DecodeFrame).2.1 =
      some (if d.r.n < d.frameHeader.FirstPartitionLen then
              VErr.unexpectedEOF
            else if d.r.src.length = 0 then VErr.eof
            else VErr.unexpectedEOF) := by
  obtain ⟨hr, hfh, -, -⟩ := ensureImg_keeps_reader_and_header d
  have hread : ((d.ensureImg).r.ReadFull
      (d.ensureImg).frameHeader.FirstPartitionLen).1
      = some (if d.r.n < d.frameHeader.FirstPartitionLen then
                VErr.unexpectedEOF
              else if d.r.src.length = 0 then VErr.eof
              else VErr.unexpectedEOF) := by
    rw [hr, hfh, limitReader.ReadFull_fst]
    rcases lt_or_ge d.r.n d.frameHeader.FirstPartitionLen with h1 | h1
    · rw [if_pos h1, if_pos h1]
    · rw [if_neg (by omega : ¬ d.r.n < d.frameHeader.FirstPartitionLen),
          if_neg (by omega : ¬ d.r.n < d.frameHeader.FirstPartitionLen),
          if_neg (by omega :
            ¬ d.frameHeader.FirstPartitionLen ≤ d.r.src.length)]
      rcases Nat.eq_zero_or_pos d.r.src.length with h2 | h2
      · rw [if_pos h2, if_pos h2]
      · rw [if_neg (by omega : ¬ d.r.src.length = 0),
            if_neg (by omega : ¬ d.r.src.length = 0)]
  exact decodeFrame_of_parse_err (parse_read_err hread)

/-- A decoder declaring a 2-byte first partition over an empty source. -/
def c8d : Decoder :=
  { Decoder.new with
      frameHeader := { FrameHeader.zero with FirstPartitionLen := 2 },
      r := ⟨[], 5⟩ }

/-- Counterexample to claim C8 as stated: the remaining bytes (none) are
fewer than the declared first-partition length 2, and DecodeFrame does
fail and return a nil image, but with os.EOF, not with
UnexpectedEndOfStream. -/
theorem c8_eof_counterexample :
    (c8d.DecodeFrame).1 = none ∧
    (c8d.DecodeFrame).2.1 = some VErr.eof ∧
    VErr.eof ≠ VErr.unexpectedEOF := by decide

/-- A decoder declaring a 2-byte first partition over a 1-byte source. -/
def c8w : Decoder :=
  { Decoder.new with
      frameHeader := { FrameHeader.zero with FirstPartitionLen := 2 },
      r := ⟨[7], 5⟩ }

theorem c8_short_first_partition_fails_witness :
    (c8w.DecodeFrame).1 = none ∧
    (c8w.DecodeFrame).2.1 =
      some (if c8w.r.n < c8w.frameHeader.FirstPartitionLen then
              VErr.unexpectedEOF
            else if c8w.r.src.length = 0 then VErr.eof
            else VErr.unexpectedEOF) :=
  c8_short_first_partition_fails c8w (by decide)

/-- Claim C9: after the first partition is loaded and its boolean decoder
initialized, parseOtherHeaders performs exactly two uniform-probability
one-bit reads if and only if the frame is a key frame — the decoder state
equals the two-read state for key frames and the freshly initialized
state otherwise, so the read values are discarded — and it fails with
UnexpectedEndOfStream exactly when the sticky exhausted flag is set at
that point. -/
theorem c9_keyframe_flag_reads (d : Decoder)
    (h1 : d.frameHeader.FirstPartitionLen ≤ d.r.n)
    (h2 : d.frameHeader.FirstPartitionLen ≤ d.r.src.length) :
    (d.parseOtherHeaders).2.fp =
      (if d.frameHeader.KeyFrame then
        ((((Partition.init
              (d.r.src.take d.frameHeader.FirstPartitionLen)).readUint
            uniformProb 1).2).readUint uniformProb 1).2
       else Partition.init
              (d.r.src.take d.frameHeader.FirstPartitionLen)) ∧
    (d.parseOtherHeaders).1 =
      (if (if d.frameHeader.KeyFrame then
            ((((Partition.init
                  (d.r.src.take d.frameHeader.FirstPartitionLen)).readUint
                uniformProb 1).2).readUint uniformProb 1).2
           else Partition.init
                  (d.r.src.take d.frameHeader.FirstPartitionLen)).unexpectedEOF
       then some VErr.unexpectedEOF else none) := by
  have hr := limitReader.ReadFull_ok h1 h2
  unfold Decoder.parseOtherHeaders
  rw [hr]
  dsimp only
  generalize Partition.init (d.r.src.take d.frameHeader.FirstPartitionLen)
    = P0
  generalize ((P0.readUint uniformProb 1).2.readUint uniformProb 1).2 = P1
  cases hkf : d.frameHeader.KeyFrame
  all_goals simp only [Bool.false_eq_true, if_false, if_true]
  all_goals
    constructor
    · split
      · rfl
      · rfl
    · split
      · rfl
      · rfl

/-- A key-frame decoder with an empty (0-length) first partition: the two
flag reads exhaust it. -/
def c9d : Decoder :=
  { Decoder.new with
      frameHeader := { FrameHeader.zero with KeyFrame := true },
      r := ⟨[], 5⟩ }

theorem c9_keyframe_flag_reads_witness :
    (c9d.parseOtherHeaders).2.fp =
      (if c9d.frameHeader.KeyFrame then
        ((((Partition.init
              (c9d.r.src.take c9d.frameHeader.FirstPartitionLen)).readUint
            uniformProb 1).2).readUint uniformProb 1).2
       else Partition.init
              (c9d.r.src.take c9d.frameHeader.FirstPartitionLen)) ∧
    (c9d.parseOtherHeaders).1 =
      (if (if c9d.frameHeader.KeyFrame then
            ((((Partition.init
                  (c9d.r.src.take c9d.frameHeader.FirstPartitionLen)).readUint
                uniformProb 1).2).readUint uniformProb 1).2
           else Partition.init
                  (c9d.r.src.take c9d.frameHeader.FirstPartitionLen)).unexpectedEOF
       then some VErr.unexpectedEOF else none) :=
  c9_keyframe_flag_reads c9d (by decide) (by decide)

/-- Claim C10: whenever ensureImg (re)allocates (that is, whenever there
is no current image whose rectangle covers the grid), the new image is a
single allocation cut into three consecutive disjoint plane slices with
len(Y) = 256*mbw*mbh and len(Cb) = len(Cr) = 64*mbw*mbh, strides
YStride = 16*mbw and CStride = 8*mbw, and logical rectangle from (0,0) to
(Width, Height); all plane views are installed in one assignment of the
image record. -/
theorem c10_alloc_plane_layout (d : Decoder)
    (h : ∀ i, d.img = some i → ¬ i.covers d.mbw d.mbh) :
    ∃ i, (d.ensureImg).img = some i ∧
      i.yLo = 0 ∧ i.yHi = i.yLo + 256 * (d.mbw * d.mbh) ∧
      i.cbLo = i.yHi ∧ i.cbHi = i.cbLo + 64 * (d.mbw * d.mbh) ∧
      i.crLo = i.cbHi ∧ i.crHi = i.crLo + 64 * (d.mbw * d.mbh) ∧
      i.bufLen = i.crHi ∧
      i.YStride = 16 * d.mbw ∧ i.CStride = 8 * d.mbw ∧
      i.rectMinX = 0 ∧ i.rectMinY = 0 ∧
      i.rectMaxX = d.frameHeader.Width ∧
      i.rectMaxY = d.frameHeader.Height := by
  have h1 : d.ensureImg = d.allocImg := by
    unfold Decoder.ensureImg
    rcases himg : d.img with _ | i
    · rfl
    · dsimp only
      rw [if_neg (h i himg)]
  rw [h1]
  refine ⟨d.allocImgVal, rfl, ?_, ?_, ?_, ?_, ?_, ?_, ?_, ?_, ?_, rfl, rfl,
    rfl, rfl⟩
  all_goals
    simp [Decoder.allocImgVal]
  all_goals
    ring

/-- A decoder with no image yet and an 11 by 9 macroblock grid for a
176 by 144 frame. -/
def c10d : Decoder :=
  { Decoder.new with
      mbw := 11, mbh := 9,
      frameHeader := { FrameHeader.zero with Width := 176, Height := 144 } }

theorem c10_alloc_plane_layout_witness :
    ∃ i, (c10d.ensureImg).img = some i ∧
      i.yLo = 0 ∧ i.yHi = i.yLo + 256 * (c10d.mbw * c10d.mbh) ∧
      i.cbLo = i.yHi ∧ i.cbHi = i.cbLo + 64 * (c10d.mbw * c10d.mbh) ∧
      i.crLo = i.cbHi ∧ i.crHi = i.crLo + 64 * (c10d.mbw * c10d.mbh) ∧
      i.bufLen = i.crHi ∧
      i.YStride = 16 * c10d.mbw ∧ i.CStride = 8 * c10d.mbw ∧
      i.rectMinX = 0 ∧ i.rectMinY = 0 ∧
      i.rectMaxX = c10d.frameHeader.Width ∧
      i.rectMaxY = c10d.frameHeader.Height :=
  c10_alloc_plane_layout c10d (fun i hi => by simp [c10d, Decoder.new] at hi)
